import Mathlib

/-!
# apps/examples/mqttc/mqttc_sub.c

A shallow embedding of the MQTT example driver: `client_refresher`,
`parsearg`, `init_conn`, `close_conn` and `main`.

The C functions talk to the C library and to the network stack.  Every such
call is recorded as an `Event` in a trace, and the value it returns is
supplied by an environment `Env` whose answers may depend on the whole
history of earlier calls.  A theorem quantified over `Env` therefore speaks
about every behaviour of the resolver and socket layer.
-/

namespace Mqttc

/-! ## Constants that come from system and library headers -/

/-- Values of the header macros and enumerators the source refers to.  The
headers are not part of the repository, so the values are parameters. -/
structure Consts where
  /-- `AF_INET` of `<sys/socket.h>`. -/
  AF_INET : Int
  /-- `SOCK_STREAM` of `<sys/socket.h>`. -/
  SOCK_STREAM : Int
  /-- `O_NONBLOCK` of `<fcntl.h>`. -/
  O_NONBLOCK : Int
  /-- `MQTT_PUBLISH_QOS_0` of `<mqtt.h>`. -/
  MQTT_PUBLISH_QOS_0 : Nat
  /-- `MQTT_PUBLISH_QOS_1` of `<mqtt.h>`. -/
  MQTT_PUBLISH_QOS_1 : Nat
  /-- `MQTT_PUBLISH_QOS_2` of `<mqtt.h>`. -/
  MQTT_PUBLISH_QOS_2 : Nat

/-- The values on NuttX (`AF_INET` 2, `SOCK_STREAM` 1, `O_NONBLOCK` `1 << 6`)
with the MQTT-C publish flags (`(q << 1) & 0x06`). -/
def nuttx : Consts :=
  { AF_INET := 2, SOCK_STREAM := 1, O_NONBLOCK := 64,
    MQTT_PUBLISH_QOS_0 := 0, MQTT_PUBLISH_QOS_1 := 2, MQTT_PUBLISH_QOS_2 := 4 }

/-- `ERROR` of NuttX `<sys/types.h>`, the end-of-options value of `getopt`. -/
def ERROR : Int := -1

/-! ## Data model -/

/-- `struct mqttc_cfg_s`.  A `const char *` is `none` when it is `NULL`. -/
structure mqttc_cfg_s where
  host : Option String
  port : Option String
  topic : Option String
  msg : Option String
  id : Option String
  user : Option String
  pass : Option String
  /-- `uint32_t`. -/
  tmo : Nat
  /-- `uint8_t`. -/
  flags : Nat
  /-- `uint8_t`. -/
  qos : Nat
deriving DecidableEq

/-- `struct mqtt_client` of `<mqtt.h>`: the only member the source reads is
`socketfd`. -/
structure mqtt_client where
  socketfd : Int
deriving DecidableEq

/-- `struct mqtt_conn_context_s`; the buffers are byte sequences. -/
structure mqtt_conn_context_s where
  client : mqtt_client
  sendbuf : List Nat
  recvbuf : List Nat
deriving DecidableEq

/-- `struct addrinfo` without its `ai_next` link: a resolver result is a
`List addrinfo`, the list order being the `ai_next` order.  `ai_addr` is the
socket address as bytes (`[]` for a null pointer). -/
structure addrinfo where
  ai_flags : Int
  ai_family : Int
  ai_socktype : Int
  ai_protocol : Int
  ai_addrlen : Nat
  ai_addr : List Nat
deriving DecidableEq

/-- The two `fcntl` commands the source issues. -/
inductive FcntlCmd where
  | F_GETFL
  | F_SETFL
deriving DecidableEq

/-- An argument of a `printf` call. -/
inductive PrintArg where
  | str (s : Option String)
  | int (i : Int)
deriving DecidableEq

/-- One call into the C library, the network stack or the MQTT library,
with the value it returned. -/
inductive Event where
  | printf (fmt : String) (args : List PrintArg)
  | fprintf_stderr (fmt : String)
  | getaddrinfo (node service : Option String) (hints : addrinfo) (ret : Int)
      (res : List addrinfo)
  | socket (domain type protocol : Int) (ret : Int)
  | connect (fd : Int) (addr : List Nat) (addrlen : Nat) (ret : Int)
  | close (fd : Int)
  | freeaddrinfo (res : List addrinfo)
  | fcntl (fd : Int) (cmd : FcntlCmd) (arg : Int) (ret : Int)
  | mqtt_sync (client : Nat) (ret : Int)
  | usleep (usec : Nat)
deriving DecidableEq

/-- The behaviour of everything outside the source file.  Each answer is a
function of the history of calls made so far and of the call's arguments. -/
structure Env where
  /-- Return value of `getaddrinfo` and the list stored through `res`. -/
  getaddrinfo : List Event → Option String → Option String → addrinfo → Int × List addrinfo
  gai_strerror : Int → String
  socket : List Event → Int → Int → Int → Int
  connect : List Event → Int → List Nat → Nat → Int
  fcntl : List Event → Int → FcntlCmd → Int → Int
  errno : List Event → Int
  /-- Value of `strtol (nptr, NULL, base)`, a `long`. -/
  strtol : Option String → Int → Int
  /-- Return value of `mqtt_sync` on the client at the given address. -/
  mqtt_sync : List Event → Nat → Int

/-! ## init_conn -/

/-- The `hints` that `init_conn` passes to `getaddrinfo`: all zero, then
`ai_family = AF_INET` and `ai_socktype = SOCK_STREAM`. -/
def init_conn_hints (k : Consts) : addrinfo :=
  let hints : addrinfo :=
    { ai_flags := 0, ai_family := 0, ai_socktype := 0, ai_protocol := 0,
      ai_addrlen := 0, ai_addr := [] }
  let hints := { hints with ai_family := k.AF_INET }
  { hints with ai_socktype := k.SOCK_STREAM }

/-- The `do ... while ((itr = itr->ai_next) != NULL)` loop of `init_conn`,
entered with `itr` and the list `rest` that follows it.  Returns the final
value of `fd` and the extended trace. -/
def connect_loop (env : Env) (itr : addrinfo) (rest : List addrinfo)
    (tr : List Event) : Int × List Event :=
  let fd := env.socket tr itr.ai_family itr.ai_socktype itr.ai_protocol
  let tr := tr ++ [Event.socket itr.ai_family itr.ai_socktype itr.ai_protocol fd]
  if fd < 0 then
    -- continue: jumps to the loop condition
    match rest with
    | [] => (fd, tr)
    | nxt :: rest => connect_loop env nxt rest tr
  else
    let ret := env.connect tr fd itr.ai_addr itr.ai_addrlen
    let tr := tr ++ [Event.connect fd itr.ai_addr itr.ai_addrlen ret]
    if ret = 0 then
      (fd, tr)
    else
      let tr := tr ++ [Event.close fd]
      let fd : Int := -1
      match rest with
      | [] => (fd, tr)
      | nxt :: rest => connect_loop env nxt rest tr

/-- What a call of `init_conn` computes: the returned `int`, the value that
`*socketfd` holds at the end, and the trace. -/
structure InitResult where
  ret : Int
  socketfd : Int
  trace : List Event
deriving DecidableEq

/-- The function `init_conn`, called after the history `tr` with `*socketfd`
holding `socketfd`.  The result is `none` when `getaddrinfo` reports success
with a null list, where the loop dereferences a null pointer.  No statement
of the function reads or writes through `conn`; what the store
`*socketfd = fd` does to the caller's memory depends on where `socketfd`
points and is the matter of `init_conn_at`. -/
def init_conn (k : Consts) (env : Env) (cfg : mqttc_cfg_s)
    (_conn : mqtt_conn_context_s) (socketfd : Int) (tr : List Event) :
    Option InitResult :=
  let tr := tr ++ [Event.printf "Connecting to %s:%s...\n"
    [PrintArg.str cfg.host, PrintArg.str cfg.port]]
  let hints := init_conn_hints k
  let gai := env.getaddrinfo tr cfg.host cfg.port hints
  let ret := gai.1
  let servinfo := gai.2
  let tr := tr ++ [Event.getaddrinfo cfg.host cfg.port hints ret servinfo]
  if ret ≠ 0 then
    let tr := tr ++ [Event.printf "ERROR! getaddrinfo() failed: %s\n"
      [PrintArg.str (some (env.gai_strerror ret))]]
    some { ret := -1, socketfd := socketfd, trace := tr }
  else
    match servinfo with
    | [] => none
    | itr :: rest =>
      let lp := connect_loop env itr rest tr
      let fd := lp.1
      let tr := lp.2 ++ [Event.freeaddrinfo servinfo]
      if fd < 0 then
        let tr := tr ++ [Event.printf "ERROR! Couldn't create socket\n" []]
        some { ret := -1, socketfd := socketfd, trace := tr }
      else
        let ret := env.fcntl tr fd FcntlCmd.F_GETFL 0
        let tr := tr ++ [Event.fcntl fd FcntlCmd.F_GETFL 0 ret]
        if ret < 0 then
          let tr := tr ++ [Event.close fd]
          let tr := tr ++ [Event.printf "ERROR! fcntl() F_GETFL failed, errno: %d\n"
            [PrintArg.int (env.errno tr)]]
          some { ret := -1, socketfd := socketfd, trace := tr }
        else
          let arg := Int.lor ret k.O_NONBLOCK
          let ret := env.fcntl tr fd FcntlCmd.F_SETFL arg
          let tr := tr ++ [Event.fcntl fd FcntlCmd.F_SETFL arg ret]
          if ret < 0 then
            let tr := tr ++ [Event.close fd]
            let tr := tr ++ [Event.printf "ERROR! fcntl() F_SETFL failed, errno: %d\n"
              [PrintArg.int (env.errno tr)]]
            some { ret := -1, socketfd := socketfd, trace := tr }
          else
            some { ret := 0, socketfd := fd, trace := tr }

/-- Where the argument `socketfd` of `init_conn` points: at a variable of
the caller outside the connection context, or at the member
`conn->client.socketfd` of the context passed as `conn`. -/
inductive HandlePtr where
  | caller_var
  | client_socketfd
deriving DecidableEq

/-- The caller's memory that `init_conn` and `close_conn` can reach: the
connection context and a handle variable outside it. -/
structure Memory where
  conn : mqtt_conn_context_s
  handle : Int
deriving DecidableEq

/-- The value `*p`. -/
def deref (m : Memory) : HandlePtr → Int
  | HandlePtr.caller_var => m.handle
  | HandlePtr.client_socketfd => m.conn.client.socketfd

/-- The store `*p = v`. -/
def assign (m : Memory) (p : HandlePtr) (v : Int) : Memory :=
  match p with
  | HandlePtr.caller_var => { m with handle := v }
  | HandlePtr.client_socketfd =>
    { m with conn := { m.conn with client := { m.conn.client with socketfd := v } } }

/-- The call `init_conn (cfg, &m.conn, p)` in the memory `m`: the returned
`int`, the memory after the call and the trace.  The only store of
`init_conn` is `*socketfd = fd`, made on the path that returns 0; on the
other paths `*socketfd` keeps the value it had. -/
def init_conn_at (k : Consts) (env : Env) (cfg : mqttc_cfg_s) (m : Memory)
    (p : HandlePtr) (tr : List Event) : Option (Int × Memory × List Event) :=
  match init_conn k env cfg m.conn (deref m p) tr with
  | none => none
  | some r => some (r.ret, assign m p r.socketfd, r.trace)

/-! ## close_conn -/

/-- The function `close_conn`: one `close` of `conn->client.socketfd`, whose
return value is dropped. -/
def close_conn (conn : mqtt_conn_context_s) (tr : List Event) : List Event :=
  tr ++ [Event.close conn.client.socketfd]

/-! ## client_refresher -/

/-- The function `client_refresher` run for at most `fuel` turns of its
`while (1)` loop on the client at address `data`.  The first component is
`some 0` once the function has returned `NULL` and `none` while it is still
looping. -/
def client_refresher (env : Env) (data : Nat) :
    Nat → List Event → Option Nat × List Event
  | 0, tr => (none, tr)
  | fuel + 1, tr =>
    if (1 : Int) ≠ 0 then
      let r := env.mqtt_sync tr data
      let tr := tr ++ [Event.mqtt_sync data r]
      let tr := tr ++ [Event.usleep 100000]
      client_refresher env data fuel tr
    else
      (some 0, tr)

/-! ## parsearg -/

/-- The code of a character constant as an `int`. -/
def chr (c : Char) : Int := (c.toNat : Int)

/-- Conversion of a `long` to a 32-bit `int`. -/
def toInt32 (v : Int) : Int := (v + 2 ^ 31) % 2 ^ 32 - 2 ^ 31

/-- What one call of `getopt` hands back: its return value and `optarg`. -/
structure GetoptRet where
  opt : Int
  optarg : Option String
deriving DecidableEq

/-- The state `parsearg` works on: `*cfg`, `*n` and the trace. -/
structure ParseState where
  cfg : mqttc_cfg_s
  n : Int
  trace : List Event
deriving DecidableEq

/-- The body of the `while` loop of `parsearg`: the `switch (opt)`. -/
def parsearg_switch (k : Consts) (env : Env) (opt : Int) (optarg : Option String)
    (st : ParseState) : ParseState :=
  if opt = chr 'h' then
    { st with cfg := { st.cfg with host := optarg } }
  else if opt = chr 'p' then
    { st with cfg := { st.cfg with port := optarg } }
  else if opt = chr 'm' then
    { st with cfg := { st.cfg with msg := optarg } }
  else if opt = chr 't' then
    { st with cfg := { st.cfg with topic := optarg } }
  else if opt = chr 'n' then
    { st with n := toInt32 (env.strtol optarg 10) }
  else if opt = chr 'q' then
    let v := env.strtol optarg 10
    if v = chr '0' then
      { st with cfg := { st.cfg with qos := k.MQTT_PUBLISH_QOS_0 % 256 } }
    else if v = chr '1' then
      { st with cfg := { st.cfg with qos := k.MQTT_PUBLISH_QOS_1 % 256 } }
    else if v = chr '2' then
      { st with cfg := { st.cfg with qos := k.MQTT_PUBLISH_QOS_2 % 256 } }
    else
      st
  else
    { st with trace := st.trace ++ [Event.fprintf_stderr "ERROR: Unrecognized option\n"] }

/-- The function `parsearg`, given the values that the successive `getopt`
calls hand back.  The loop ends at the first `ERROR`; a list that runs out
stands for a `getopt` that answers `ERROR` from then on. -/
def parsearg (k : Consts) (env : Env) : List GetoptRet → ParseState → ParseState
  | [], st => st
  | g :: gs, st =>
    if g.opt ≠ ERROR then
      parsearg k env gs (parsearg_switch k env g.opt g.optarg st)
    else
      st

/-- The option string `parsearg` passes to `getopt`, `EXTRA_OPT` being
empty. -/
def optstring : String := "h:p:m:t:n:q:" ++ ""

/-! ### The library function getopt

`getopt` is not part of the repository.  The definitions below follow its
POSIX description. -/

/-- Looks `c` up in the option string: `none` when `c` is no option
character, `some true` when it is one that takes an argument. -/
def takes_arg (c : Char) : List Char → Option Bool
  | [] => none
  | o :: os =>
    if o = c ∧ c ≠ ':' then some (os.head? = some ':') else takes_arg c os

/-- The `getopt` results from the option characters `cs` left in one
element of `argv`, `next` being the element after it.  The flag tells
whether `next` was taken as an option argument. -/
def getopt_cluster (opts : List Char) (next : Option String) :
    List Char → List GetoptRet × Bool
  | [] => ([], false)
  | c :: cs =>
    match takes_arg c opts with
    | none =>
      let r := getopt_cluster opts next cs
      ({ opt := chr '?', optarg := none } :: r.1, r.2)
    | some false =>
      let r := getopt_cluster opts next cs
      ({ opt := chr c, optarg := none } :: r.1, r.2)
    | some true =>
      if cs ≠ [] then
        ([{ opt := chr c, optarg := some (String.mk cs) }], false)
      else
        match next with
        | some a => ([{ opt := chr c, optarg := some a }], true)
        | none => ([{ opt := chr '?', optarg := none }], false)

/-- The values handed back by successive `getopt` calls over the elements
of `argv` from `optind` on, up to the call that answers `-1`.  A lone `-`,
a `--` and an element that does not start with `-` end the options. -/
def getopt_from (opts : List Char) : List String → List GetoptRet
  | [] => []
  | [s] =>
    match s.data with
    | '-' :: c :: cs =>
      if s = "--" then [] else (getopt_cluster opts none (c :: cs)).1
    | _ => []
  | s :: a :: rest =>
    match s.data with
    | '-' :: c :: cs =>
      if s = "--" then []
      else
        let r := getopt_cluster opts (some a) (c :: cs)
        if r.2 then r.1 ++ getopt_from opts rest
        else r.1 ++ getopt_from opts (a :: rest)
    | _ => []

/-- The `getopt` results for a whole `argv`, whose first element is the
program name. -/
def getopt_all (opts : String) (argv : List String) : List GetoptRet :=
  getopt_from opts.data argv.tail

/-- `parsearg (argc, argv, cfg, n)` with `getopt` as POSIX describes it. -/
def parsearg_argv (k : Consts) (env : Env) (argv : List String)
    (st : ParseState) : ParseState :=
  parsearg k env (getopt_all optstring argv) st

/-! ## main -/

/-- The function `main`: its body is `return 0;`. -/
def main (_argc : Int) (_argv : List String) (tr : List Event) : Int × List Event :=
  (0, tr)

/-! ## Specification vocabulary -/

/-- The events of one unsuccessful pass of the connect loop over the
address `a`: either a `socket` call that fails, or a `socket` call that
succeeds followed by a `connect` that fails and the `close` of the
descriptor. -/
def FailedAttempt (a : addrinfo) (chunk : List Event) : Prop :=
  (∃ fd : Int, fd < 0 ∧
    chunk = [Event.socket a.ai_family a.ai_socktype a.ai_protocol fd]) ∨
  (∃ fd ret : Int, 0 ≤ fd ∧ ret ≠ 0 ∧
    chunk = [Event.socket a.ai_family a.ai_socktype a.ai_protocol fd,
             Event.connect fd a.ai_addr a.ai_addrlen ret,
             Event.close fd])

/-- The events that follow `freeaddrinfo` in `init_conn` once the loop has
left the connected descriptor `fd`, together with the returned value `ret`
and the final `*socketfd` (`h` being its value on entry). -/
def FcntlTail (k : Consts) (fd h ret sfd : Int) (tail : List Event) : Prop :=
  (∃ fl e : Int, fl < 0 ∧ ret = -1 ∧ sfd = h ∧
    tail = [Event.fcntl fd FcntlCmd.F_GETFL 0 fl, Event.close fd,
            Event.printf "ERROR! fcntl() F_GETFL failed, errno: %d\n" [PrintArg.int e]]) ∨
  (∃ fl s e : Int, 0 ≤ fl ∧ s < 0 ∧ ret = -1 ∧ sfd = h ∧
    tail = [Event.fcntl fd FcntlCmd.F_GETFL 0 fl,
            Event.fcntl fd FcntlCmd.F_SETFL (Int.lor fl k.O_NONBLOCK) s, Event.close fd,
            Event.printf "ERROR! fcntl() F_SETFL failed, errno: %d\n" [PrintArg.int e]]) ∨
  (∃ fl s : Int, 0 ≤ fl ∧ 0 ≤ s ∧ ret = 0 ∧ sfd = fd ∧
    tail = [Event.fcntl fd FcntlCmd.F_GETFL 0 fl,
            Event.fcntl fd FcntlCmd.F_SETFL (Int.lor fl k.O_NONBLOCK) s])

/-- The first event of `init_conn`: its progress message. -/
def connecting_msg (cfg : mqttc_cfg_s) : Event :=
  Event.printf "Connecting to %s:%s...\n" [PrintArg.str cfg.host, PrintArg.str cfg.port]

/-- What the resolver answers to the `getaddrinfo` call of `init_conn` made
after the history `tr`: the return value and the address list. -/
def resolved (k : Consts) (env : Env) (cfg : mqttc_cfg_s) (tr : List Event) :
    Int × List addrinfo :=
  env.getaddrinfo (tr ++ [connecting_msg cfg]) cfg.host cfg.port (init_conn_hints k)

/-- The event of the `getaddrinfo` call of `init_conn`. -/
def gai_event (k : Consts) (env : Env) (cfg : mqttc_cfg_s) (tr : List Event) : Event :=
  Event.getaddrinfo cfg.host cfg.port (init_conn_hints k)
    (resolved k env cfg tr).1 (resolved k env cfg tr).2

/-- The event `e` records the answer that the environment gives to its
call after the history `hist`.  Calls that return nothing to the source
(`printf`, `close`, `freeaddrinfo`, `usleep`) are always so. -/
def Answered (env : Env) (hist : List Event) : Event → Prop
  | Event.getaddrinfo node service hints ret res =>
    (ret, res) = env.getaddrinfo hist node service hints
  | Event.socket d t p ret => ret = env.socket hist d t p
  | Event.connect fd addr addrlen ret => ret = env.connect hist fd addr addrlen
  | Event.fcntl fd cmd arg ret => ret = env.fcntl hist fd cmd arg
  | Event.mqtt_sync client ret => ret = env.mqtt_sync hist client
  | _ => True

/-- Every event of the trace `t` from position `n` on records the answer of
the environment after the events before it. -/
def Consistent (env : Env) (n : Nat) (t : List Event) : Prop :=
  ∀ p e s, t = p ++ e :: s → n ≤ p.length → Answered env p e

/-- The resolver keeps the POSIX promise that a successful `getaddrinfo`
stores a list with at least one entry. -/
def NonNullOnSuccess (env : Env) : Prop :=
  ∀ tr node service hints,
    (env.getaddrinfo tr node service hints).1 = 0 →
    (env.getaddrinfo tr node service hints).2 ≠ []

/-- Whether the request `hints` admits the entry `a`, as POSIX describes
`getaddrinfo`: a zero `ai_family` (`AF_UNSPEC`), `ai_socktype` or
`ai_protocol` admits every value, any other value only itself. -/
def admits (hints a : addrinfo) : Bool :=
  (hints.ai_family = 0 || a.ai_family = hints.ai_family) &&
  (hints.ai_socktype = 0 || a.ai_socktype = hints.ai_socktype) &&
  (hints.ai_protocol = 0 || a.ai_protocol = hints.ai_protocol)

/-- The resolver returns only entries that the request admits. -/
def HonoursHints (env : Env) : Prop :=
  ∀ tr node service hints a,
    a ∈ (env.getaddrinfo tr node service hints).2 → admits hints a = true

/-! ## Concrete environments -/

/-- `strtol` in base 10 on a list of characters that starts at the digits:
the value of the longest run of decimal digits, after `acc`. -/
def strtol_digits : List Char → Int → Int
  | [], acc => acc
  | c :: cs, acc =>
    if c.isDigit then strtol_digits cs (acc * 10 + ((c.toNat - 48 : Nat) : Int)) else acc

/-- A `strtol` for base 10 and a 32-bit `long`: blanks, an optional sign,
decimal digits, the value clamped to the range of `long`. -/
def strtol_model (nptr : Option String) (_base : Int) : Int :=
  let cs := ((nptr.getD "").data).dropWhile Char.isWhitespace
  let v : Int :=
    match cs with
    | '-' :: ds => - strtol_digits ds 0
    | '+' :: ds => strtol_digits ds 0
    | ds => strtol_digits ds 0
  max (-(2 ^ 31)) (min v (2 ^ 31 - 1))

/-- A resolver over a fixed set `db` of address records: it returns the
records the request admits, and fails with `EAI_NONAME` (`-2` here) when
there is none. -/
def db_getaddrinfo (db : List addrinfo) (hints : addrinfo) : Int × List addrinfo :=
  let res := db.filter (admits hints)
  if res = [] then (-2, []) else (0, res)

/-- An environment over the address records `db` in which `socket` hands
out descriptor 3, `connect` succeeds exactly on the addresses in `up`,
`F_GETFL` reads `O_RDWR` (2) and `F_SETFL` succeeds. -/
def env_db (db : List addrinfo) (up : List (List Nat)) : Env :=
  { getaddrinfo := fun _ _ _ hints => db_getaddrinfo db hints
    gai_strerror := fun _ => "Unknown error"
    socket := fun _ _ _ _ => 3
    connect := fun _ _ addr _ => if addr ∈ up then 0 else -1
    fcntl := fun _ _ cmd _ => match cmd with
      | FcntlCmd.F_GETFL => 2
      | FcntlCmd.F_SETFL => 0
    errno := fun _ => 0
    strtol := strtol_model
    mqtt_sync := fun _ _ => 1 }

/-- An IPv4 TCP record for 192.0.2.1 port 1883 (`sockaddr_in` bytes). -/
def addr4_a : addrinfo :=
  { ai_flags := 0, ai_family := 2, ai_socktype := 1, ai_protocol := 6,
    ai_addrlen := 16, ai_addr := [2, 0, 7, 91, 192, 0, 2, 1, 0, 0, 0, 0, 0, 0, 0, 0] }

/-- An IPv4 TCP record for 192.0.2.2 port 1883. -/
def addr4_b : addrinfo :=
  { ai_flags := 0, ai_family := 2, ai_socktype := 1, ai_protocol := 6,
    ai_addrlen := 16, ai_addr := [2, 0, 7, 91, 192, 0, 2, 2, 0, 0, 0, 0, 0, 0, 0, 0] }

/-- An IPv6 TCP record (`AF_INET6` is 10 on NuttX) for 2001:db8::1 port 1883. -/
def addr6 : addrinfo :=
  { ai_flags := 0, ai_family := 10, ai_socktype := 1, ai_protocol := 6,
    ai_addrlen := 28,
    ai_addr := [10, 0, 7, 91, 0, 0, 0, 0, 32, 1, 13, 184, 0, 0, 0, 0, 0, 0, 0, 0,
                0, 0, 0, 1, 0, 0, 0, 0] }

/-- An IPv4 UDP record for 192.0.2.1 port 1883 (`SOCK_DGRAM` is 2 on NuttX). -/
def addr_dgram : addrinfo :=
  { ai_flags := 0, ai_family := 2, ai_socktype := 2, ai_protocol := 17,
    ai_addrlen := 16, ai_addr := [2, 0, 7, 91, 192, 0, 2, 1, 0, 0, 0, 0, 0, 0, 0, 0] }

/-- An environment whose resolver pays no attention to the request and
always stores the datagram record `addr_dgram`; `socket`, `connect` and
`fcntl` succeed. -/
def env_dgram : Env :=
  { env_db [] [addr_dgram.ai_addr] with
    getaddrinfo := fun _ _ _ _ => (0, [addr_dgram]) }

/-- A configuration naming a broker. -/
def cfg0 : mqttc_cfg_s :=
  { host := some "broker", port := some "1883", topic := some "test",
    msg := some "hello", id := none, user := none, pass := none,
    tmo := 400, flags := 2, qos := 0 }

/-- A connection context whose client holds descriptor 7. -/
def conn0 : mqtt_conn_context_s :=
  { client := { socketfd := 7 }, sendbuf := [], recvbuf := [] }

/-- An environment in which the broker name has three records, two for IPv4
and one for IPv6, and only the second IPv4 address accepts connections. -/
def env_two : Env := env_db [addr4_a, addr4_b, addr6] [addr4_b.ai_addr]

/-- An environment in which the broker name has one IPv4 record, which
accepts connections. -/
def env_one : Env := env_db [addr4_a] [addr4_a.ai_addr]

/-- An environment in which the broker name has only an IPv6 record, which
accepts connections. -/
def env_six : Env := env_db [addr6] [addr6.ai_addr]

/-- The argument-vector elements for a list of options, each with its
argument: `-c` followed by the argument. -/
def option_args (opts : List (Char × String)) : List String :=
  opts.flatMap fun p => [String.mk ['-', p.1], p.2]

/-- The argument of the last occurrence of option `c` in `opts`, or `d` when
`c` does not occur. -/
def last_arg (c : Char) : List (Char × String) → Option String → Option String
  | [], d => d
  | p :: ps, d => last_arg c ps (if p.1 = c then some p.2 else d)

/-! # Theorems

## The connect loop -/

/-- Every run of the connect loop either fails on each address in turn and
ends with a negative `fd`, or fails on the addresses before some `a` and
ends right after the successful `socket` and `connect` on `a`. -/
lemma connect_loop_spec (env : Env) (rest : List addrinfo) :
    ∀ (itr : addrinfo) (tr : List Event),
      ((connect_loop env itr rest tr).1 < 0 ∧
        ∃ chunks, List.Forall₂ FailedAttempt (itr :: rest) chunks ∧
          (connect_loop env itr rest tr).2 = tr ++ chunks.flatten) ∨
      (0 ≤ (connect_loop env itr rest tr).1 ∧
        ∃ pre a post chunks, itr :: rest = pre ++ a :: post ∧
          List.Forall₂ FailedAttempt pre chunks ∧
          (connect_loop env itr rest tr).2 = tr ++ chunks.flatten ++
            [Event.socket a.ai_family a.ai_socktype a.ai_protocol
               (connect_loop env itr rest tr).1,
             Event.connect (connect_loop env itr rest tr).1 a.ai_addr a.ai_addrlen 0]) := by
  induction rest with
  | nil =>
    intro itr tr
    rw [connect_loop]
    by_cases hs : env.socket tr itr.ai_family itr.ai_socktype itr.ai_protocol < 0
    · left
      simp only [hs, if_true, true_and]
      exact ⟨[[Event.socket itr.ai_family itr.ai_socktype itr.ai_protocol _]],
        List.Forall₂.cons (Or.inl ⟨_, hs, rfl⟩) List.Forall₂.nil, by simp⟩
    · simp only [hs, if_false]
      split_ifs with hc
      · right
        refine ⟨not_lt.mp hs, [], itr, [], [], rfl, List.Forall₂.nil, ?_⟩
        simp [hc]
      · left
        refine ⟨show ((-1 : Int)) < 0 by decide, [[Event.socket itr.ai_family itr.ai_socktype itr.ai_protocol _,
          Event.connect _ itr.ai_addr itr.ai_addrlen _, Event.close _]],
          List.Forall₂.cons (Or.inr ⟨_, _, not_lt.mp hs, hc, rfl⟩) List.Forall₂.nil, by simp⟩
  | cons nxt rest ih =>
    intro itr tr
    rw [connect_loop]
    by_cases hs : env.socket tr itr.ai_family itr.ai_socktype itr.ai_protocol < 0
    · simp only [hs, if_true]
      rcases ih nxt (tr ++ [Event.socket itr.ai_family itr.ai_socktype itr.ai_protocol
          (env.socket tr itr.ai_family itr.ai_socktype itr.ai_protocol)]) with
        ⟨hneg, chunks, hall, htr⟩ | ⟨hpos, pre, a, post, chunks, hsplit, hall, htr⟩
      · left
        refine ⟨hneg, _ :: chunks, List.Forall₂.cons (Or.inl ⟨_, hs, rfl⟩) hall, ?_⟩
        rw [htr]; simp
      · right
        refine ⟨hpos, itr :: pre, a, post, _ :: chunks, by rw [hsplit]; rfl,
          List.Forall₂.cons (Or.inl ⟨_, hs, rfl⟩) hall, ?_⟩
        rw [htr]; simp
    · simp only [hs, if_false]
      split_ifs with hc
      · right
        refine ⟨not_lt.mp hs, [], itr, nxt :: rest, [], rfl, List.Forall₂.nil, ?_⟩
        simp [hc]
      · rcases ih nxt (tr ++ [Event.socket itr.ai_family itr.ai_socktype itr.ai_protocol
            (env.socket tr itr.ai_family itr.ai_socktype itr.ai_protocol)] ++
            [Event.connect (env.socket tr itr.ai_family itr.ai_socktype itr.ai_protocol)
              itr.ai_addr itr.ai_addrlen
              (env.connect (tr ++ [Event.socket itr.ai_family itr.ai_socktype itr.ai_protocol
                (env.socket tr itr.ai_family itr.ai_socktype itr.ai_protocol)])
                (env.socket tr itr.ai_family itr.ai_socktype itr.ai_protocol)
                itr.ai_addr itr.ai_addrlen)] ++
            [Event.close (env.socket tr itr.ai_family itr.ai_socktype itr.ai_protocol)]) with
          ⟨hneg, chunks, hall, htr⟩ | ⟨hpos, pre, a, post, chunks, hsplit, hall, htr⟩
        · left
          refine ⟨hneg, _ :: chunks,
            List.Forall₂.cons (Or.inr ⟨_, _, not_lt.mp hs, hc, rfl⟩) hall, ?_⟩
          rw [htr]; simp
        · right
          refine ⟨hpos, itr :: pre, a, post, _ :: chunks, by rw [hsplit]; rfl,
            List.Forall₂.cons (Or.inr ⟨_, _, not_lt.mp hs, hc, rfl⟩) hall, ?_⟩
          rw [htr]; simp

/-! ## init_conn -/

/-- When `getaddrinfo` fails, `init_conn` reports it and returns `-1`. -/
lemma init_conn_gai_fail (k : Consts) (env : Env) (cfg : mqttc_cfg_s)
    (conn : mqtt_conn_context_s) (h : Int) (tr : List Event)
    (hz : (resolved k env cfg tr).1 ≠ 0) :
    init_conn k env cfg conn h tr =
      some { ret := -1, socketfd := h,
             trace := tr ++ [connecting_msg cfg, gai_event k env cfg tr,
               Event.printf "ERROR! getaddrinfo() failed: %s\n"
                 [PrintArg.str (some (env.gai_strerror (resolved k env cfg tr).1))]] } := by
  unfold resolved connecting_msg at hz
  simp [init_conn, hz, gai_event, resolved, connecting_msg]

/-- When `getaddrinfo` succeeds with a non-empty list, `init_conn` returns,
and its trace is the resolver call, the failed attempts, and then either the
report that no socket could be made or the successful attempt followed by
`freeaddrinfo` and the `fcntl` calls. -/
lemma init_conn_run (k : Consts) (env : Env) (cfg : mqttc_cfg_s)
    (conn : mqtt_conn_context_s) (h : Int) (tr : List Event)
    (hz : (resolved k env cfg tr).1 = 0) (hl : (resolved k env cfg tr).2 ≠ []) :
    ∃ r chunks, init_conn k env cfg conn h tr = some r ∧
      ((List.Forall₂ FailedAttempt (resolved k env cfg tr).2 chunks ∧
          r.ret = -1 ∧ r.socketfd = h ∧
          r.trace = tr ++ [connecting_msg cfg, gai_event k env cfg tr] ++ chunks.flatten ++
            [Event.freeaddrinfo (resolved k env cfg tr).2,
             Event.printf "ERROR! Couldn't create socket\n" []]) ∨
       (∃ pre a post fd tail, (resolved k env cfg tr).2 = pre ++ a :: post ∧
          List.Forall₂ FailedAttempt pre chunks ∧ 0 ≤ fd ∧
          r.trace = tr ++ [connecting_msg cfg, gai_event k env cfg tr] ++ chunks.flatten ++
            [Event.socket a.ai_family a.ai_socktype a.ai_protocol fd,
             Event.connect fd a.ai_addr a.ai_addrlen 0,
             Event.freeaddrinfo (resolved k env cfg tr).2] ++ tail ∧
          FcntlTail k fd h r.ret r.socketfd tail)) := by
  obtain ⟨itr, rest, hcons⟩ : ∃ itr rest, (resolved k env cfg tr).2 = itr :: rest := by
    cases hres : (resolved k env cfg tr).2 with
    | nil => exact absurd hres hl
    | cons itr rest => exact ⟨itr, rest, rfl⟩
  have hz1 := hz
  have hcons1 := hcons
  unfold resolved connecting_msg at hz1 hcons1
  have hspec := connect_loop_spec env rest itr
      (tr ++ [Event.printf "Connecting to %s:%s...\n"
          [PrintArg.str cfg.host, PrintArg.str cfg.port]] ++
        [Event.getaddrinfo cfg.host cfg.port (init_conn_hints k) 0 (itr :: rest)])
  simp only [init_conn, hz1, hcons1, ne_eq, not_true_eq_false, if_false]
  simp only [gai_event, resolved, connecting_msg, hz1, hcons1]
  generalize connect_loop env itr rest _ = lp at hspec ⊢
  rcases hspec with ⟨hneg, chunks, hall, htr⟩ | ⟨hpos, pre, a, post, chunks, hsplit, hall, htr⟩
  · simp only [hneg, if_true]
    exact ⟨_, chunks, rfl, Or.inl ⟨hall, rfl, rfl, by simp [htr]⟩⟩
  · have hnl : ¬ lp.1 < 0 := not_lt.mpr hpos
    simp only [hnl, if_false]
    generalize hfl : env.fcntl (lp.2 ++ [Event.freeaddrinfo (itr :: rest)]) lp.1
      FcntlCmd.F_GETFL 0 = fl
    by_cases h1 : fl < 0
    · simp only [h1, if_true]
      generalize env.errno _ = e
      refine ⟨_, chunks, rfl, Or.inr ⟨pre, a, post, lp.1,
        [Event.fcntl lp.1 FcntlCmd.F_GETFL 0 fl, Event.close lp.1,
          Event.printf "ERROR! fcntl() F_GETFL failed, errno: %d\n" [PrintArg.int e]],
        hsplit, hall, hpos, ?_, Or.inl ⟨fl, e, h1, rfl, rfl, rfl⟩⟩⟩
      simp [htr]
    · simp only [h1, if_false]
      generalize hs : env.fcntl (lp.2 ++ [Event.freeaddrinfo (itr :: rest)] ++
        [Event.fcntl lp.1 FcntlCmd.F_GETFL 0 fl]) lp.1 FcntlCmd.F_SETFL
        (Int.lor fl k.O_NONBLOCK) = s
      by_cases h2 : s < 0
      · simp only [h2, if_true]
        generalize env.errno _ = e
        refine ⟨_, chunks, rfl, Or.inr ⟨pre, a, post, lp.1,
          [Event.fcntl lp.1 FcntlCmd.F_GETFL 0 fl,
            Event.fcntl lp.1 FcntlCmd.F_SETFL (Int.lor fl k.O_NONBLOCK) s, Event.close lp.1,
            Event.printf "ERROR! fcntl() F_SETFL failed, errno: %d\n" [PrintArg.int e]],
          hsplit, hall, hpos, ?_,
          Or.inr (Or.inl ⟨fl, s, e, not_lt.mp h1, h2, rfl, rfl, rfl⟩)⟩⟩
        simp [htr]
      · simp only [h2, if_false]
        refine ⟨_, chunks, rfl, Or.inr ⟨pre, a, post, lp.1,
          [Event.fcntl lp.1 FcntlCmd.F_GETFL 0 fl,
            Event.fcntl lp.1 FcntlCmd.F_SETFL (Int.lor fl k.O_NONBLOCK) s],
          hsplit, hall, hpos, ?_,
          Or.inr (Or.inr ⟨fl, s, not_lt.mp h1, not_lt.mp h2, rfl, rfl, rfl⟩)⟩⟩
        simp [htr]

/-- When `getaddrinfo` reports success with a null list, the loop of
`init_conn` dereferences a null pointer. -/
lemma init_conn_null (k : Consts) (env : Env) (cfg : mqttc_cfg_s)
    (conn : mqtt_conn_context_s) (h : Int) (tr : List Event)
    (hz : (resolved k env cfg tr).1 = 0) (hl : (resolved k env cfg tr).2 = []) :
    init_conn k env cfg conn h tr = none := by
  unfold resolved connecting_msg at hz hl
  simp [init_conn, hz, hl]

/-- A successful `init_conn`: the resolver succeeded, the addresses before
some `a` failed, `a` was connected on the returned descriptor, and both
`fcntl` calls succeeded on it. -/
lemma init_conn_success (k : Consts) (env : Env) (cfg : mqttc_cfg_s)
    (conn : mqtt_conn_context_s) (h : Int) (tr : List Event) (r : InitResult)
    (hr : init_conn k env cfg conn h tr = some r) (h0 : r.ret = 0) :
    ∃ chunks pre a post fl s,
      (resolved k env cfg tr).1 = 0 ∧ (resolved k env cfg tr).2 = pre ++ a :: post ∧
      List.Forall₂ FailedAttempt pre chunks ∧
      0 ≤ r.socketfd ∧ 0 ≤ fl ∧ 0 ≤ s ∧
      r.trace = tr ++ [connecting_msg cfg, gai_event k env cfg tr] ++ chunks.flatten ++
        [Event.socket a.ai_family a.ai_socktype a.ai_protocol r.socketfd,
         Event.connect r.socketfd a.ai_addr a.ai_addrlen 0,
         Event.freeaddrinfo (resolved k env cfg tr).2,
         Event.fcntl r.socketfd FcntlCmd.F_GETFL 0 fl,
         Event.fcntl r.socketfd FcntlCmd.F_SETFL (Int.lor fl k.O_NONBLOCK) s] := by
  by_cases hz : (resolved k env cfg tr).1 = 0
  · by_cases hl : (resolved k env cfg tr).2 = []
    · rw [init_conn_null k env cfg conn h tr hz hl] at hr
      exact absurd hr (by simp)
    · obtain ⟨r', chunks, hr', hcase⟩ := init_conn_run k env cfg conn h tr hz hl
      rw [hr'] at hr
      obtain rfl : r' = r := Option.some.inj hr
      rcases hcase with ⟨_, hm, _, _⟩ | ⟨pre, a, post, fd, tail, hsplit, hall, hfd, htr, htail⟩
      · rw [h0] at hm
        exact absurd hm (by decide)
      · rcases htail with ⟨_, _, _, hm, _, _⟩ | ⟨_, _, _, _, _, hm, _, _⟩ |
          ⟨fl, s, hfl, hs, _, hsfd, htl⟩
        · rw [h0] at hm
          exact absurd hm (by decide)
        · rw [h0] at hm
          exact absurd hm (by decide)
        · subst hsfd
          refine ⟨chunks, pre, a, post, fl, s, hz, hsplit, hall, hfd, hfl, hs, ?_⟩
          rw [htr, htl]
          simp
  · rw [init_conn_gai_fail k env cfg conn h tr hz] at hr
    obtain rfl := Option.some.inj hr
    simp at h0

/-- C1, as the code has it: if `init_conn` returns 0, the handle stored in
`*socketfd` is the descriptor of a `socket` call made with the family, type
and protocol of one of the resolved addresses `a`, `connect` on it to the address of `a` returned
0, and after `freeaddrinfo` its flags, read by `F_GETFL` as `fl`, were set by
a successful `F_SETFL` to `fl | O_NONBLOCK`, whose set bits are those of `fl`
and those of `O_NONBLOCK`; nothing follows these calls.  This holds for
every environment.  The socket type of `a` is `SOCK_STREAM` as soon as the
resolver keeps the `getaddrinfo` contract of returning only entries that the
request admits. -/
theorem init_conn_zero_gives_connected_nonblocking_socket
    (k : Consts) (env : Env) (cfg : mqttc_cfg_s)
    (conn : mqtt_conn_context_s) (h : Int) (tr : List Event) (r : InitResult)
    (hr : init_conn k env cfg conn h tr = some r) (h0 : r.ret = 0) :
    ∃ a fl s before,
      a ∈ (resolved k env cfg tr).2 ∧
      (HonoursHints env → k.SOCK_STREAM ≠ 0 → a.ai_socktype = k.SOCK_STREAM) ∧
      0 ≤ r.socketfd ∧ 0 ≤ fl ∧ 0 ≤ s ∧
      r.trace = tr ++ before ++
        [Event.socket a.ai_family a.ai_socktype a.ai_protocol r.socketfd,
         Event.connect r.socketfd a.ai_addr a.ai_addrlen 0,
         Event.freeaddrinfo (resolved k env cfg tr).2,
         Event.fcntl r.socketfd FcntlCmd.F_GETFL 0 fl,
         Event.fcntl r.socketfd FcntlCmd.F_SETFL (Int.lor fl k.O_NONBLOCK) s] ∧
      (∀ i, (Int.lor fl k.O_NONBLOCK).testBit i = (fl.testBit i || k.O_NONBLOCK.testBit i)) := by
  obtain ⟨chunks, pre, a, post, fl, s, _, hsplit, _, hfd, hfl, hs, htr⟩ :=
    init_conn_success k env cfg conn h tr r hr h0
  have hmem : a ∈ (resolved k env cfg tr).2 := by rw [hsplit]; simp
  have hty : HonoursHints env → k.SOCK_STREAM ≠ 0 → a.ai_socktype = k.SOCK_STREAM := by
    intro hh hstream
    have hadm := hh _ _ _ _ a hmem
    simp only [admits, init_conn_hints, Bool.and_eq_true, Bool.or_eq_true,
      decide_eq_true_eq] at hadm
    rcases hadm.1.2 with h1 | h1
    · exact absurd h1 hstream
    · exact h1
  refine ⟨a, fl, s, [connecting_msg cfg, gai_event k env cfg tr] ++ chunks.flatten,
    hmem, hty, hfd, hfl, hs, ?_, fun i => Int.testBit_lor fl k.O_NONBLOCK i⟩
  rw [htr]
  simp

/-- C9: after a successful `getaddrinfo` with a non-empty list, `init_conn`
returns, and its trace shows the addresses tried in list order.  Either every
address has a failed attempt (a failed `socket` alone, or `socket`, a failed
`connect` and `close`) and -1 is returned; or the addresses `pre` before
some `a` have failed attempts, `a` has a successful `socket` and `connect`
on `fd`, `freeaddrinfo` follows at once with no call for the addresses `post`
after `a`, and only `fcntl` calls on `fd` (and its `close` on failure)
follow, `*socketfd` receiving `fd` when 0 is returned. -/
theorem init_conn_stops_at_first_connected_address
    (k : Consts) (env : Env) (cfg : mqttc_cfg_s)
    (conn : mqtt_conn_context_s) (h : Int) (tr : List Event)
    (hz : (resolved k env cfg tr).1 = 0) (hl : (resolved k env cfg tr).2 ≠ []) :
    ∃ r chunks, init_conn k env cfg conn h tr = some r ∧
      ((List.Forall₂ FailedAttempt (resolved k env cfg tr).2 chunks ∧
          r.ret = -1 ∧ r.socketfd = h ∧
          r.trace = tr ++ [connecting_msg cfg, gai_event k env cfg tr] ++ chunks.flatten ++
            [Event.freeaddrinfo (resolved k env cfg tr).2,
             Event.printf "ERROR! Couldn't create socket\n" []]) ∨
       (∃ pre a post fd tail, (resolved k env cfg tr).2 = pre ++ a :: post ∧
          List.Forall₂ FailedAttempt pre chunks ∧ 0 ≤ fd ∧
          r.trace = tr ++ [connecting_msg cfg, gai_event k env cfg tr] ++ chunks.flatten ++
            [Event.socket a.ai_family a.ai_socktype a.ai_protocol fd,
             Event.connect fd a.ai_addr a.ai_addrlen 0,
             Event.freeaddrinfo (resolved k env cfg tr).2] ++ tail ∧
          FcntlTail k fd h r.ret r.socketfd tail)) := by
  exact init_conn_run k env cfg conn h tr hz hl

/-- The events of failed attempts are `socket` calls, `connect` calls that
did not return 0, and `close` calls. -/
lemma failed_chunk_events {l : List addrinfo} {chunks : List (List Event)}
    (hall : List.Forall₂ FailedAttempt l chunks) :
    ∀ e ∈ chunks.flatten,
      (∃ d t p fd, e = Event.socket d t p fd) ∨
      (∃ fd addr len ret, ret ≠ 0 ∧ e = Event.connect fd addr len ret) ∨
      (∃ fd, e = Event.close fd) := by
  induction hall with
  | nil => intro e he; simp at he
  | cons hc _ ih =>
    intro e he
    rw [List.flatten_cons, List.mem_append] at he
    rcases he with he | he
    · rcases hc with ⟨fd, _, rfl⟩ | ⟨fd, ret, _, hret, rfl⟩
      · simp only [List.mem_singleton] at he
        exact Or.inl ⟨_, _, _, _, he⟩
      · simp only [List.mem_cons, List.mem_singleton, List.not_mem_nil, or_false] at he
        rcases he with he | he | he
        · exact Or.inl ⟨_, _, _, _, he⟩
        · exact Or.inr (Or.inl ⟨_, _, _, _, hret, he⟩)
        · exact Or.inr (Or.inr ⟨_, he⟩)
    · exact ih e he

/-- A trace is consistent from its own end on. -/
lemma consistent_refl (env : Env) (t : List Event) : Consistent env t.length t := by
  intro p e s heq hn
  have hlen := congrArg List.length heq
  simp only [List.length_append, List.length_cons] at hlen
  omega

/-- Appending an event that records the environment's answer keeps a trace
consistent. -/
lemma consistent_snoc {env : Env} {n : Nat} {t : List Event} {e : Event}
    (ht : Consistent env n t) (he : Answered env t e) : Consistent env n (t ++ [e]) := by
  intro p e' s heq hn
  rcases List.eq_nil_or_concat s with rfl | ⟨s', x, rfl⟩
  · obtain ⟨h1, h2⟩ := List.append_inj' heq rfl
    simp only [List.cons.injEq, and_true] at h2
    rw [← h1, ← h2]
    exact he
  · have heq' : t ++ [e] = (p ++ e' :: s') ++ [x] := by
      rw [heq]; simp
    obtain ⟨h1, _⟩ := List.append_inj' heq' rfl
    exact ht p e' s' h1 hn

/-- The connect loop records the environment's answers. -/
lemma connect_loop_consistent (env : Env) (n : Nat) (rest : List addrinfo) :
    ∀ (itr : addrinfo) (tr : List Event), Consistent env n tr →
      Consistent env n (connect_loop env itr rest tr).2 := by
  induction rest with
  | nil =>
    intro itr tr ht
    rw [connect_loop]
    by_cases hs : env.socket tr itr.ai_family itr.ai_socktype itr.ai_protocol < 0
    · simp only [hs, if_true]
      exact consistent_snoc ht (Eq.refl _)
    · simp only [hs, if_false]
      split_ifs
      · exact consistent_snoc (consistent_snoc ht (Eq.refl _)) (Eq.refl _)
      · exact consistent_snoc (consistent_snoc (consistent_snoc ht (Eq.refl _)) (Eq.refl _))
          trivial
  | cons nxt rest ih =>
    intro itr tr ht
    rw [connect_loop]
    by_cases hs : env.socket tr itr.ai_family itr.ai_socktype itr.ai_protocol < 0
    · simp only [hs, if_true]
      exact ih _ _ (consistent_snoc ht (Eq.refl _))
    · simp only [hs, if_false]
      split_ifs
      · exact consistent_snoc (consistent_snoc ht (Eq.refl _)) (Eq.refl _)
      · exact ih _ _ (consistent_snoc (consistent_snoc (consistent_snoc ht (Eq.refl _))
          (Eq.refl _)) trivial)

/-- Every event that `init_conn` adds to the trace records the answer the
environment gave to that call. -/
lemma init_conn_consistent (k : Consts) (env : Env) (cfg : mqttc_cfg_s)
    (conn : mqtt_conn_context_s) (h : Int) (tr : List Event) (r : InitResult)
    (hr : init_conn k env cfg conn h tr = some r) : Consistent env tr.length r.trace := by
  have h0 : Consistent env tr.length tr := consistent_refl env tr
  have h1 := consistent_snoc (e := Event.printf "Connecting to %s:%s...\n"
    [PrintArg.str cfg.host, PrintArg.str cfg.port]) h0 trivial
  have h2 := consistent_snoc (e := Event.getaddrinfo cfg.host cfg.port (init_conn_hints k)
    (env.getaddrinfo (tr ++ [Event.printf "Connecting to %s:%s...\n"
      [PrintArg.str cfg.host, PrintArg.str cfg.port]]) cfg.host cfg.port
      (init_conn_hints k)).1
    (env.getaddrinfo (tr ++ [Event.printf "Connecting to %s:%s...\n"
      [PrintArg.str cfg.host, PrintArg.str cfg.port]]) cfg.host cfg.port
      (init_conn_hints k)).2) h1 rfl
  simp only [init_conn] at hr
  split_ifs at hr with hz
  · obtain rfl := Option.some.inj hr
    exact consistent_snoc h2 trivial
  · split at hr
    · exact absurd hr (by simp)
    · rename_i itr rest hcons
      have h3 := connect_loop_consistent env tr.length rest itr _ h2
      split_ifs at hr with hfd hfl hs
      · obtain rfl := Option.some.inj hr
        exact consistent_snoc (consistent_snoc h3 trivial) trivial
      · obtain rfl := Option.some.inj hr
        exact consistent_snoc (consistent_snoc (consistent_snoc
          (consistent_snoc h3 trivial) rfl) trivial) trivial
      · obtain rfl := Option.some.inj hr
        exact consistent_snoc (consistent_snoc (consistent_snoc (consistent_snoc
          (consistent_snoc h3 trivial) rfl) rfl) trivial) trivial
      · obtain rfl := Option.some.inj hr
        exact consistent_snoc (consistent_snoc (consistent_snoc h3 trivial) rfl) rfl

/-- C2: with a resolver that stores a non-empty list whenever it reports
success, `init_conn` returns; the events `new` it adds to the trace all
record the answers the environment gave; its value is 0 or -1, and a return
of -1 leaves `*socketfd` as it was.  It returns -1 exactly when, among the
calls it made, `getaddrinfo` returned non-zero; or `getaddrinfo` returned 0
with the list `l`, every address of `l` has in list order a failed attempt
(a failed `socket`, or a `socket` followed by a failed `connect`), and no
address of `l` has a `socket` call with a non-negative result and a
`connect` on that result returning 0; or an `F_GETFL` returned a negative
value; or an `F_SETFL` returned a negative value.  Otherwise it returns 0,
and then the calls end with a successful `socket` and `connect` on a resolved
address, `freeaddrinfo`, and two successful `fcntl` calls on the descriptor
stored in `*socketfd`. -/
theorem init_conn_returns_minus_one_iff
    (k : Consts) (env : Env) (cfg : mqttc_cfg_s)
    (conn : mqtt_conn_context_s) (h : Int) (tr : List Event)
    (hnn : NonNullOnSuccess env) :
    ∃ r new, init_conn k env cfg conn h tr = some r ∧ r.trace = tr ++ new ∧
      Consistent env tr.length r.trace ∧
      (r.ret = 0 ∨ r.ret = -1) ∧
      (r.ret = -1 → r.socketfd = h) ∧
      (r.ret = -1 ↔
        ((∃ code res, code ≠ 0 ∧
            Event.getaddrinfo cfg.host cfg.port (init_conn_hints k) code res ∈ new) ∨
         (∃ l chunks,
            Event.getaddrinfo cfg.host cfg.port (init_conn_hints k) 0 l ∈ new ∧
            List.Forall₂ FailedAttempt l chunks ∧ chunks.flatten <:+: new ∧
            ∀ a ∈ l, ¬ ∃ fd : Int, 0 ≤ fd ∧
              Event.socket a.ai_family a.ai_socktype a.ai_protocol fd ∈ new ∧
              Event.connect fd a.ai_addr a.ai_addrlen 0 ∈ new) ∨
         (∃ fd fl, fl < 0 ∧ Event.fcntl fd FcntlCmd.F_GETFL 0 fl ∈ new) ∨
         (∃ fd arg s, s < 0 ∧ Event.fcntl fd FcntlCmd.F_SETFL arg s ∈ new))) ∧
      (r.ret = 0 →
        ∃ a fd fl s before, a ∈ (resolved k env cfg tr).2 ∧
          0 ≤ fd ∧ 0 ≤ fl ∧ 0 ≤ s ∧ r.socketfd = fd ∧
          new = before ++
            [Event.socket a.ai_family a.ai_socktype a.ai_protocol fd,
             Event.connect fd a.ai_addr a.ai_addrlen 0,
             Event.freeaddrinfo (resolved k env cfg tr).2,
             Event.fcntl fd FcntlCmd.F_GETFL 0 fl,
             Event.fcntl fd FcntlCmd.F_SETFL (Int.lor fl k.O_NONBLOCK) s]) := by
  by_cases hz : (resolved k env cfg tr).1 = 0
  · have hl : (resolved k env cfg tr).2 ≠ [] := hnn _ _ _ _ hz
    obtain ⟨r, chunks, hr, hcase⟩ := init_conn_run k env cfg conn h tr hz hl
    have hcons := init_conn_consistent k env cfg conn h tr r hr
    have hno : ∀ hc : r.ret = 0, r.ret = -1 → False := by
      intro hc hm; rw [hc] at hm; exact absurd hm (by decide)
    rcases hcase with ⟨hall, hm, hsfd, htr⟩ |
      ⟨pre, a, post, fd, tail, hsplit, hall, hfd, htr, htail⟩
    · refine ⟨r, _, hr, by rw [htr]; simp only [List.append_assoc]; rfl, hcons, Or.inr hm,
        fun _ => hsfd,
        ⟨fun _ => Or.inr (Or.inl ⟨(resolved k env cfg tr).2, chunks, ?_, hall,
          ⟨[connecting_msg cfg, gai_event k env cfg tr],
            [Event.freeaddrinfo (resolved k env cfg tr).2,
              Event.printf "ERROR! Couldn't create socket\n" []], by simp⟩, ?_⟩),
          fun _ => hm⟩,
        fun hc => (hno hc hm).elim⟩
      · simp [gai_event, hz]
      · rintro b _ ⟨fd, _, _, hc⟩
        simp only [List.mem_append, List.mem_cons, List.mem_singleton, List.not_mem_nil,
          or_false, connecting_msg, gai_event, reduceCtorEq, false_or] at hc
        rcases failed_chunk_events hall _ hc with ⟨_, _, _, _, he⟩ |
          ⟨_, _, _, _, hne, he⟩ | ⟨_, he⟩
        · simp at he
        · simp only [Event.connect.injEq] at he
          exact hne he.2.2.2.symm
        · simp at he
    · have hev := failed_chunk_events hall
      rcases htail with ⟨fl, e, hfl, hm, hsfd, htl⟩ | ⟨fl, s, e, hfl, hs, hm, hsfd, htl⟩ |
        ⟨fl, s, hfl, hs, hm, hsfd, htl⟩
      · refine ⟨r, _, hr, by rw [htr]; simp only [List.append_assoc]; rfl, hcons, Or.inr hm,
          fun _ => hsfd,
          ⟨fun _ => Or.inr (Or.inr (Or.inl ⟨fd, fl, hfl, ?_⟩)), fun _ => hm⟩,
          fun hc => (hno hc hm).elim⟩
        simp [htl]
      · refine ⟨r, _, hr, by rw [htr]; simp only [List.append_assoc]; rfl, hcons, Or.inr hm,
          fun _ => hsfd,
          ⟨fun _ => Or.inr (Or.inr (Or.inr ⟨fd, Int.lor fl k.O_NONBLOCK, s, hs, ?_⟩)),
            fun _ => hm⟩,
          fun hc => (hno hc hm).elim⟩
        simp [htl]
      · have hamem : a ∈ (resolved k env cfg tr).2 := by rw [hsplit]; simp
        refine ⟨r, _, hr, by rw [htr]; simp only [List.append_assoc]; rfl, hcons, Or.inl hm,
          fun hc => (hno hm hc).elim, ?_,
          fun _ => ⟨a, fd, fl, s, [connecting_msg cfg, gai_event k env cfg tr] ++
            chunks.flatten, hamem, hfd, hfl, hs, hsfd, by simp [htl]⟩⟩
        rw [hm]
        refine ⟨fun hc => absurd hc (by decide), fun hc => False.elim ?_⟩
        rcases hc with ⟨code, res, hcode, hmem⟩ | ⟨l, _, hgmem, _, _, hnone⟩ |
          ⟨fd', fl', hfl', hmem⟩ | ⟨fd', arg, s', hs', hmem⟩
        · simp only [List.mem_append, List.mem_cons, List.mem_singleton, List.not_mem_nil,
            or_false, connecting_msg, gai_event, reduceCtorEq, false_or, or_false, htl,
            Event.getaddrinfo.injEq] at hmem
          rcases hmem with ⟨_, _, _, hc0, _⟩ | hmem
          · exact hcode (hc0.trans hz)
          · rcases hev _ hmem with ⟨_, _, _, _, he⟩ | ⟨_, _, _, _, _, he⟩ | ⟨_, he⟩ <;>
              simp at he
        · have hleq : l = (resolved k env cfg tr).2 := by
            simp only [List.mem_append, List.mem_cons, List.mem_singleton, List.not_mem_nil,
              or_false, connecting_msg, gai_event, reduceCtorEq, false_or, or_false, htl,
              Event.getaddrinfo.injEq] at hgmem
            rcases hgmem with ⟨_, _, _, _, hl2⟩ | hgmem
            · exact hl2
            · rcases hev _ hgmem with ⟨_, _, _, _, he⟩ | ⟨_, _, _, _, _, he⟩ | ⟨_, he⟩ <;>
                simp at he
          refine hnone a (by rw [hleq]; exact hamem) ⟨fd, hfd, ?_, ?_⟩ <;> simp
        · simp [connecting_msg, gai_event, htl, -List.mem_flatten] at hmem
          rcases hmem with hmem | ⟨_, hmem⟩
          · rcases hev _ hmem with ⟨_, _, _, _, he⟩ | ⟨_, _, _, _, _, he⟩ | ⟨_, he⟩ <;>
              simp at he
          · omega
        · simp [connecting_msg, gai_event, htl, -List.mem_flatten] at hmem
          rcases hmem with hmem | ⟨_, _, hmem⟩
          · rcases hev _ hmem with ⟨_, _, _, _, he⟩ | ⟨_, _, _, _, _, he⟩ | ⟨_, he⟩ <;>
              simp at he
          · omega
  · have hr := init_conn_gai_fail k env cfg conn h tr hz
    refine ⟨_, _, hr, by simp only [List.append_assoc]; rfl,
      init_conn_consistent k env cfg conn h tr _ hr, Or.inr rfl, fun _ => rfl,
      ⟨fun _ => Or.inl ⟨(resolved k env cfg tr).1, (resolved k env cfg tr).2, hz, ?_⟩,
        fun _ => rfl⟩,
      fun hc => by simp at hc⟩
    simp [gai_event]

/-- The resolver `db_getaddrinfo` returns only admitted records. -/
lemma env_db_honours_hints (db : List addrinfo) (up : List (List Nat)) :
    HonoursHints (env_db db up) := by
  intro tr node service hints a ha
  simp only [env_db, db_getaddrinfo] at ha
  split_ifs at ha with hres
  · simp at ha
  · exact (List.mem_filter.mp ha).2

/-- The resolver `db_getaddrinfo` never reports success with an empty list. -/
lemma env_db_non_null (db : List addrinfo) (up : List (List Nat)) :
    NonNullOnSuccess (env_db db up) := by
  intro tr node service hints hz
  simp only [env_db, db_getaddrinfo] at hz ⊢
  split_ifs at hz ⊢ with hres
  · simp at hz
  · exact hres

/-- Witness for C1: in `env_two` the call returns 0 and the conclusion of
the theorem holds, the connected record being a stream record. -/
theorem init_conn_zero_gives_connected_nonblocking_socket_witness :
    ∃ r, init_conn nuttx env_two cfg0 conn0 (-5) [] = some r ∧ r.ret = 0 ∧
      ∃ a fl s before,
        a ∈ (resolved nuttx env_two cfg0 []).2 ∧ a.ai_socktype = nuttx.SOCK_STREAM ∧
        0 ≤ r.socketfd ∧ 0 ≤ fl ∧ 0 ≤ s ∧
        r.trace = [] ++ before ++
          [Event.socket a.ai_family a.ai_socktype a.ai_protocol r.socketfd,
           Event.connect r.socketfd a.ai_addr a.ai_addrlen 0,
           Event.freeaddrinfo (resolved nuttx env_two cfg0 []).2,
           Event.fcntl r.socketfd FcntlCmd.F_GETFL 0 fl,
           Event.fcntl r.socketfd FcntlCmd.F_SETFL (Int.lor fl nuttx.O_NONBLOCK) s] := by
  refine ⟨_, rfl, rfl, ?_⟩
  obtain ⟨a, fl, s, before, hmem, hty, hfd, hfl, hs, htr, _⟩ :=
    init_conn_zero_gives_connected_nonblocking_socket nuttx env_two cfg0 conn0 (-5) [] _
      rfl rfl
  exact ⟨a, fl, s, before, hmem, hty (env_db_honours_hints _ _) (by decide), hfd, hfl, hs, htr⟩

/-- C1 fails as stated: the request asks for `SOCK_STREAM`, but in
`env_dgram`, whose resolver stores a datagram record all the same,
`init_conn` hands the type of that record to `socket`, connects the
descriptor, sets `O_NONBLOCK` and returns 0 with a datagram socket in
`*socketfd`. -/
theorem init_conn_returns_zero_on_datagram_socket :
    (init_conn_hints nuttx).ai_socktype = nuttx.SOCK_STREAM ∧
    addr_dgram.ai_socktype ≠ nuttx.SOCK_STREAM ∧
    init_conn nuttx env_dgram cfg0 conn0 (-5) [] =
      some { ret := 0, socketfd := 3,
             trace := [connecting_msg cfg0,
               Event.getaddrinfo cfg0.host cfg0.port (init_conn_hints nuttx) 0 [addr_dgram],
               Event.socket 2 2 17 3,
               Event.connect 3 addr_dgram.ai_addr 16 0,
               Event.freeaddrinfo [addr_dgram],
               Event.fcntl 3 FcntlCmd.F_GETFL 0 2,
               Event.fcntl 3 FcntlCmd.F_SETFL 66 0] } :=
  ⟨by decide, by decide, by decide⟩

/-- Witness for C2: `env_two` keeps the resolver promise; there `init_conn`
returns 0 with descriptor 3 in `*socketfd`, so by the theorem none of the
four failure conditions holds among its calls, which end with the successful
`socket`, `connect` and `fcntl` calls.  In `env_six`, where the resolver
fails, it returns -1, leaves `*socketfd` at -5, and one of the four
conditions holds. -/
theorem init_conn_returns_minus_one_iff_witness :
    NonNullOnSuccess env_two ∧
    (∃ r new, init_conn nuttx env_two cfg0 conn0 (-5) [] = some r ∧ r.trace = [] ++ new ∧
      r.ret = 0 ∧ r.socketfd = 3 ∧ Consistent env_two 0 r.trace ∧
      ¬ ((∃ code res, code ≠ 0 ∧
            Event.getaddrinfo cfg0.host cfg0.port (init_conn_hints nuttx) code res ∈ new) ∨
         (∃ l chunks,
            Event.getaddrinfo cfg0.host cfg0.port (init_conn_hints nuttx) 0 l ∈ new ∧
            List.Forall₂ FailedAttempt l chunks ∧ chunks.flatten <:+: new ∧
            ∀ a ∈ l, ¬ ∃ fd : Int, 0 ≤ fd ∧
              Event.socket a.ai_family a.ai_socktype a.ai_protocol fd ∈ new ∧
              Event.connect fd a.ai_addr a.ai_addrlen 0 ∈ new) ∨
         (∃ fd fl, fl < 0 ∧ Event.fcntl fd FcntlCmd.F_GETFL 0 fl ∈ new) ∨
         (∃ fd arg s, s < 0 ∧ Event.fcntl fd FcntlCmd.F_SETFL arg s ∈ new)) ∧
      ∃ a fd fl s before, a ∈ (resolved nuttx env_two cfg0 []).2 ∧
        0 ≤ fd ∧ 0 ≤ fl ∧ 0 ≤ s ∧ r.socketfd = fd ∧
        new = before ++
          [Event.socket a.ai_family a.ai_socktype a.ai_protocol fd,
           Event.connect fd a.ai_addr a.ai_addrlen 0,
           Event.freeaddrinfo (resolved nuttx env_two cfg0 []).2,
           Event.fcntl fd FcntlCmd.F_GETFL 0 fl,
           Event.fcntl fd FcntlCmd.F_SETFL (Int.lor fl nuttx.O_NONBLOCK) s]) ∧
    NonNullOnSuccess env_six ∧
    (∃ r new, init_conn nuttx env_six cfg0 conn0 (-5) [] = some r ∧ r.trace = [] ++ new ∧
      r.ret = -1 ∧ r.socketfd = -5 ∧
      ((∃ code res, code ≠ 0 ∧
            Event.getaddrinfo cfg0.host cfg0.port (init_conn_hints nuttx) code res ∈ new) ∨
         (∃ l chunks,
            Event.getaddrinfo cfg0.host cfg0.port (init_conn_hints nuttx) 0 l ∈ new ∧
            List.Forall₂ FailedAttempt l chunks ∧ chunks.flatten <:+: new ∧
            ∀ a ∈ l, ¬ ∃ fd : Int, 0 ≤ fd ∧
              Event.socket a.ai_family a.ai_socktype a.ai_protocol fd ∈ new ∧
              Event.connect fd a.ai_addr a.ai_addrlen 0 ∈ new) ∨
         (∃ fd fl, fl < 0 ∧ Event.fcntl fd FcntlCmd.F_GETFL 0 fl ∈ new) ∨
         (∃ fd arg s, s < 0 ∧ Event.fcntl fd FcntlCmd.F_SETFL arg s ∈ new))) := by
  refine ⟨env_db_non_null _ _, ?_, env_db_non_null _ _, ?_⟩
  · obtain ⟨r, new, hr, htr, hcons, _, _, hiff, hzero⟩ :=
      init_conn_returns_minus_one_iff nuttx env_two cfg0 conn0 (-5) [] (env_db_non_null _ _)
    have hret : (init_conn nuttx env_two cfg0 conn0 (-5) []).map (fun x => x.ret) = some 0 := by
      decide
    have hfd : (init_conn nuttx env_two cfg0 conn0 (-5) []).map (fun x => x.socketfd) =
        some 3 := by decide
    rw [hr] at hret hfd
    have hr0 : r.ret = 0 := Option.some.inj hret
    exact ⟨r, new, hr, htr, hr0, Option.some.inj hfd, hcons,
      fun hc => absurd (hiff.mpr hc) (by rw [hr0]; decide), hzero hr0⟩
  · obtain ⟨r, new, hr, htr, _, _, hkeep, hiff, _⟩ :=
      init_conn_returns_minus_one_iff nuttx env_six cfg0 conn0 (-5) [] (env_db_non_null _ _)
    have hret : (init_conn nuttx env_six cfg0 conn0 (-5) []).map (fun x => x.ret) =
        some (-1) := by decide
    rw [hr] at hret
    have hr1 : r.ret = -1 := Option.some.inj hret
    exact ⟨r, new, hr, htr, hr1, hkeep hr1, hiff.mp hr1⟩

/-- Witness for C9: in `env_two` the resolver succeeds with three records
admitted two, and the theorem applies. -/
theorem init_conn_stops_at_first_connected_address_witness :
    (resolved nuttx env_two cfg0 []).1 = 0 ∧ (resolved nuttx env_two cfg0 []).2 ≠ [] ∧
    ∃ r chunks, init_conn nuttx env_two cfg0 conn0 (-5) [] = some r ∧
      ((List.Forall₂ FailedAttempt (resolved nuttx env_two cfg0 []).2 chunks ∧
          r.ret = -1 ∧ r.socketfd = -5 ∧
          r.trace = [] ++ [connecting_msg cfg0, gai_event nuttx env_two cfg0 []] ++
            chunks.flatten ++
            [Event.freeaddrinfo (resolved nuttx env_two cfg0 []).2,
             Event.printf "ERROR! Couldn't create socket\n" []]) ∨
       (∃ pre a post fd tail, (resolved nuttx env_two cfg0 []).2 = pre ++ a :: post ∧
          List.Forall₂ FailedAttempt pre chunks ∧ 0 ≤ fd ∧
          r.trace = [] ++ [connecting_msg cfg0, gai_event nuttx env_two cfg0 []] ++
            chunks.flatten ++
            [Event.socket a.ai_family a.ai_socktype a.ai_protocol fd,
             Event.connect fd a.ai_addr a.ai_addrlen 0,
             Event.freeaddrinfo (resolved nuttx env_two cfg0 []).2] ++ tail ∧
          FcntlTail nuttx fd (-5) r.ret r.socketfd tail)) :=
  ⟨by decide, by decide,
    init_conn_stops_at_first_connected_address nuttx env_two cfg0 conn0 (-5) []
      (by decide) (by decide)⟩

/-! ## close_conn -/

/-- Reading back what was just stored. -/
lemma deref_assign (m : Memory) (p : HandlePtr) (v : Int) : deref (assign m p v) p = v := by
  cases p <;> rfl

/-- Storing the value a location already holds changes nothing. -/
lemma assign_deref (m : Memory) (p : HandlePtr) : assign m p (deref m p) = m := by
  cases p <;> rfl

/-- On every path of `init_conn` that does not return 0, `*socketfd` keeps
its value. -/
lemma init_conn_keeps_handle (k : Consts) (env : Env) (cfg : mqttc_cfg_s)
    (conn : mqtt_conn_context_s) (h : Int) (tr : List Event) (r : InitResult)
    (hr : init_conn k env cfg conn h tr = some r) (h0 : r.ret ≠ 0) : r.socketfd = h := by
  by_cases hz : (resolved k env cfg tr).1 = 0
  · by_cases hl : (resolved k env cfg tr).2 = []
    · rw [init_conn_null k env cfg conn h tr hz hl] at hr
      exact absurd hr (by simp)
    · obtain ⟨r', chunks, hr', hcase⟩ := init_conn_run k env cfg conn h tr hz hl
      rw [hr'] at hr
      obtain rfl : r' = r := Option.some.inj hr
      rcases hcase with ⟨_, _, hsfd, _⟩ | ⟨_, _, _, _, _, _, _, _, _, htail⟩
      · exact hsfd
      · rcases htail with ⟨_, _, _, _, hsfd, _⟩ | ⟨_, _, _, _, _, _, hsfd, _⟩ |
          ⟨_, _, _, _, hm, _, _⟩
        · exact hsfd
        · exact hsfd
        · exact absurd hm h0
  · rw [init_conn_gai_fail k env cfg conn h tr hz] at hr
    obtain rfl := Option.some.inj hr
    rfl

/-- A call of `init_conn` that does not return 0 leaves the caller's memory
as it was, wherever the handle points. -/
lemma init_conn_at_failure_keeps_memory (k : Consts) (env : Env) (cfg : mqttc_cfg_s)
    (m : Memory) (p : HandlePtr) (tr : List Event) (ret : Int) (m' : Memory)
    (tr' : List Event)
    (hr : init_conn_at k env cfg m p tr = some (ret, m', tr')) (h0 : ret ≠ 0) : m' = m := by
  unfold init_conn_at at hr
  cases hres : init_conn k env cfg m.conn (deref m p) tr with
  | none => rw [hres] at hr; exact absurd hr (by simp)
  | some r =>
    rw [hres] at hr
    simp only [Option.some.injEq, Prod.mk.injEq] at hr
    obtain ⟨rfl, rfl, rfl⟩ := hr
    rw [init_conn_keeps_handle k env cfg m.conn (deref m p) tr r hres h0]
    exact assign_deref m p

/-- C5, as the code has it: `close_conn` makes one call, the `close` of
`conn->client.socketfd`.  After `init_conn (cfg, conn, socketfd)`, whose
handle holds the value `*socketfd` that `init_conn` left, `close_conn (conn)`
closes that descriptor when `socketfd` is `&conn->client.socketfd`; when
`socketfd` points at a variable outside the context, `init_conn` leaves the
context as it was and `close_conn` closes that descriptor exactly when
`conn->client.socketfd` held it before the call. -/
theorem close_conn_closes_client_socketfd (k : Consts) (env : Env) (cfg : mqttc_cfg_s)
    (m : Memory) (p : HandlePtr) (tr : List Event) (ret : Int) (m' : Memory)
    (tr' : List Event)
    (hr : init_conn_at k env cfg m p tr = some (ret, m', tr')) :
    (∃ r, init_conn k env cfg m.conn (deref m p) tr = some r ∧
      ret = r.ret ∧ tr' = r.trace ∧ deref m' p = r.socketfd) ∧
    close_conn m'.conn tr' = tr' ++ [Event.close m'.conn.client.socketfd] ∧
    (p = HandlePtr.client_socketfd →
      close_conn m'.conn tr' = tr' ++ [Event.close (deref m' p)]) ∧
    (p = HandlePtr.caller_var →
      m'.conn = m.conn ∧
      (close_conn m'.conn tr' = tr' ++ [Event.close (deref m' p)] ↔
        m.conn.client.socketfd = deref m' p)) := by
  unfold init_conn_at at hr
  cases hres : init_conn k env cfg m.conn (deref m p) tr with
  | none => rw [hres] at hr; exact absurd hr (by simp)
  | some r =>
    rw [hres] at hr
    simp only [Option.some.injEq, Prod.mk.injEq] at hr
    obtain ⟨rfl, rfl, rfl⟩ := hr
    refine ⟨⟨r, rfl, rfl, rfl, deref_assign m p r.socketfd⟩, rfl, ?_, ?_⟩
    · rintro rfl; rfl
    · rintro rfl
      refine ⟨rfl, ?_⟩
      simp [close_conn, assign, deref]

/-- Witness for the amended C5, in `env_one` with the handle at
`&conn->client.socketfd`: the call returns 0 and `close_conn` closes
descriptor 3, the one `init_conn` connected. -/
theorem close_conn_closes_client_socketfd_witness :
    ∃ m' tr', init_conn_at nuttx env_one cfg0 ⟨conn0, -5⟩ HandlePtr.client_socketfd [] =
        some (0, m', tr') ∧
      deref m' HandlePtr.client_socketfd = 3 ∧
      close_conn m'.conn tr' = tr' ++ [Event.close 3] :=
  ⟨_, _, rfl, rfl,
    (close_conn_closes_client_socketfd nuttx env_one cfg0 ⟨conn0, -5⟩
      HandlePtr.client_socketfd [] 0 _ _ rfl).2.2.1 rfl⟩

/-- C5 fails as stated: in `env_one`, with a context whose client holds
descriptor 7 and a handle variable outside the context, `init_conn` returns
0 and stores descriptor 3 in the handle, the context is unchanged, and
`close_conn` on the context then closes 7; descriptor 3 is closed nowhere in
the trace. -/
theorem close_conn_leaves_init_conn_descriptor_open :
    ∃ m' tr', init_conn_at nuttx env_one cfg0 ⟨conn0, -5⟩ HandlePtr.caller_var [] =
        some (0, m', tr') ∧
      deref m' HandlePtr.caller_var = 3 ∧ m'.conn = conn0 ∧
      close_conn m'.conn tr' = tr' ++ [Event.close 7] ∧
      Event.close 3 ∉ close_conn m'.conn tr' :=
  ⟨_, _, rfl, rfl, rfl, rfl, by decide⟩

/-! ## main -/

/-- C6, as the code has it: `main` makes no call at all, whatever its
arguments, and returns 0. -/
theorem main_returns_zero_without_effect (argc : Int) (argv : List String)
    (tr : List Event) : main argc argv tr = (0, tr) := rfl

/-- C6 fails as stated: run with arguments naming a broker, `main` returns 0
with an empty trace, so it has made no `getaddrinfo` call and no `mqtt_sync`
call. -/
theorem main_with_broker_arguments_makes_no_call :
    main 5 ["mqttc_sub", "-h", "broker", "-p", "1883"] [] = (0, []) ∧
    (∃ r, init_conn nuttx env_one cfg0 conn0 (-5) [] = some r ∧
      gai_event nuttx env_one cfg0 [] ∈ r.trace ∧
      gai_event nuttx env_one cfg0 [] ∉
        (main 5 ["mqttc_sub", "-h", "broker", "-p", "1883"] []).2) ∧
    (Event.mqtt_sync 4096 1 ∈ (client_refresher env_one 4096 1 []).2 ∧
      Event.mqtt_sync 4096 1 ∉ (main 5 ["mqttc_sub", "-h", "broker", "-p", "1883"] []).2) :=
  ⟨rfl, ⟨_, rfl, by decide, by decide⟩, by decide, by decide⟩

/-! ## client_refresher -/

/-- One more turn of the loop of `client_refresher`. -/
lemma client_refresher_succ (env : Env) (data n : Nat) (tr : List Event) :
    client_refresher env data (n + 1) tr =
      client_refresher env data n
        (tr ++ [Event.mqtt_sync data (env.mqtt_sync tr data)] ++ [Event.usleep 100000]) := by
  simp [client_refresher]

/-- The trace of `client_refresher` after `n` turns: `n` pairs of events. -/
lemma client_refresher_trace (env : Env) (data n : Nat) :
    ∀ tr, ∃ rets : List Int, rets.length = n ∧
      (client_refresher env data n tr).2 =
        tr ++ (rets.map fun r => [Event.mqtt_sync data r, Event.usleep 100000]).flatten := by
  induction n with
  | zero => intro tr; exact ⟨[], rfl, by simp [client_refresher]⟩
  | succ n ih =>
    intro tr
    obtain ⟨rets, hlen, htr⟩ := ih (tr ++ [Event.mqtt_sync data (env.mqtt_sync tr data)] ++
      [Event.usleep 100000])
    refine ⟨env.mqtt_sync tr data :: rets, by simp [hlen], ?_⟩
    rw [client_refresher_succ, htr]
    simp

/-- C7: for every number `n` of turns, every behaviour of `mqtt_sync` and
every history, `client_refresher` has not returned after `n` turns of its
loop; its effects up to then are `n` repetitions of `mqtt_sync` on the client
it was given followed by `usleep (100000)`, whatever the `n` values `rets`
that `mqtt_sync` returned; and the effects of `n` turns are the first ones of
any longer run. -/
theorem client_refresher_loops_forever (env : Env) (data n : Nat) (tr : List Event) :
    (client_refresher env data n tr).1 = none ∧
    (∃ rets : List Int, rets.length = n ∧
      (client_refresher env data n tr).2 =
        tr ++ (rets.map fun r => [Event.mqtt_sync data r, Event.usleep 100000]).flatten) ∧
    ((client_refresher env data n tr).2.length = tr.length + 2 * n) ∧
    (∀ m, (client_refresher env data n tr).2 <+: (client_refresher env data (n + m) tr).2) := by
  refine ⟨?_, client_refresher_trace env data n tr, ?_, ?_⟩
  · induction n generalizing tr with
    | zero => rfl
    | succ n ih => rw [client_refresher_succ]; exact ih _
  · induction n generalizing tr with
    | zero => rfl
    | succ n ih => rw [client_refresher_succ, ih]; simp; omega
  · intro m
    induction n generalizing tr with
    | zero =>
      obtain ⟨rets, _, htr⟩ := client_refresher_trace env data (0 + m) tr
      rw [htr]
      exact List.prefix_append _ _
    | succ n ih =>
      have hnm : n + 1 + m = (n + m) + 1 := by omega
      rw [hnm, client_refresher_succ, client_refresher_succ]
      exact ih _

/-! ## The resolver request -/

/-- C8, as the code has it: the request `init_conn` builds admits exactly
the entries of family `AF_INET` and type `SOCK_STREAM`; so with a resolver
that honours the request, a call that returns 0 has left a stream socket
connected to an IPv4 address, and no address of another family is ever
connected. -/
theorem init_conn_requests_ipv4_stream_only (k : Consts)
    (hf : k.AF_INET ≠ 0) (hs : k.SOCK_STREAM ≠ 0) :
    (init_conn_hints k).ai_family = k.AF_INET ∧
    (init_conn_hints k).ai_socktype = k.SOCK_STREAM ∧
    (∀ a, admits (init_conn_hints k) a = true ↔
      (a.ai_family = k.AF_INET ∧ a.ai_socktype = k.SOCK_STREAM)) ∧
    (∀ env cfg conn h tr r, HonoursHints env →
      init_conn k env cfg conn h tr = some r → r.ret = 0 →
      ∃ a before after, a ∈ (resolved k env cfg tr).2 ∧
        a.ai_family = k.AF_INET ∧ a.ai_socktype = k.SOCK_STREAM ∧
        r.trace = before ++
          [Event.socket k.AF_INET k.SOCK_STREAM a.ai_protocol r.socketfd,
           Event.connect r.socketfd a.ai_addr a.ai_addrlen 0] ++ after) := by
  have hadm : ∀ a, admits (init_conn_hints k) a = true ↔
      (a.ai_family = k.AF_INET ∧ a.ai_socktype = k.SOCK_STREAM) := by
    intro a
    simp [admits, init_conn_hints, hf, hs]
  refine ⟨rfl, rfl, hadm, ?_⟩
  intro env cfg conn h tr r hh hr h0
  obtain ⟨chunks, pre, a, post, fl, s, _, hsplit, _, _, _, _, htr⟩ :=
    init_conn_success k env cfg conn h tr r hr h0
  have hmem : a ∈ (resolved k env cfg tr).2 := by rw [hsplit]; simp
  have ha := (hadm a).mp (hh _ _ _ _ a hmem)
  refine ⟨a, tr ++ [connecting_msg cfg, gai_event k env cfg tr] ++ chunks.flatten,
    [Event.freeaddrinfo (resolved k env cfg tr).2,
      Event.fcntl r.socketfd FcntlCmd.F_GETFL 0 fl,
      Event.fcntl r.socketfd FcntlCmd.F_SETFL (Int.lor fl k.O_NONBLOCK) s],
    hmem, ha.1, ha.2, ?_⟩
  rw [htr, ha.1, ha.2]
  simp

/-- Witness for the amended C8: the NuttX values of `AF_INET` and
`SOCK_STREAM` are not zero. -/
theorem init_conn_requests_ipv4_stream_only_witness :
    nuttx.AF_INET ≠ 0 ∧ nuttx.SOCK_STREAM ≠ 0 ∧
    (init_conn_hints nuttx).ai_family = nuttx.AF_INET ∧
    (init_conn_hints nuttx).ai_socktype = nuttx.SOCK_STREAM ∧
    (∀ a, admits (init_conn_hints nuttx) a = true ↔
      (a.ai_family = nuttx.AF_INET ∧ a.ai_socktype = nuttx.SOCK_STREAM)) ∧
    (∀ env cfg conn h tr r, HonoursHints env →
      init_conn nuttx env cfg conn h tr = some r → r.ret = 0 →
      ∃ a before after, a ∈ (resolved nuttx env cfg tr).2 ∧
        a.ai_family = nuttx.AF_INET ∧ a.ai_socktype = nuttx.SOCK_STREAM ∧
        r.trace = before ++
          [Event.socket nuttx.AF_INET nuttx.SOCK_STREAM a.ai_protocol r.socketfd,
           Event.connect r.socketfd a.ai_addr a.ai_addrlen 0] ++ after) :=
  ⟨by decide, by decide, init_conn_requests_ipv4_stream_only nuttx (by decide) (by decide)⟩

/-- C8 fails as stated: the request built by `init_conn` does not admit the
IPv6 record `addr6`, which a request with `ai_family` left at zero would be
given; in `env_six`, where the broker has only that record and it accepts
connections, `init_conn` makes no `socket` or `connect` call and returns -1. -/
theorem init_conn_rejects_ipv6_only_host :
    admits (init_conn_hints nuttx) addr6 = false ∧
    env_six.getaddrinfo [connecting_msg cfg0] cfg0.host cfg0.port
      { init_conn_hints nuttx with ai_family := 0 } = (0, [addr6]) ∧
    env_six.connect [] 3 addr6.ai_addr addr6.ai_addrlen = 0 ∧
    init_conn nuttx env_six cfg0 conn0 (-5) [] =
      some { ret := -1, socketfd := -5,
             trace := [connecting_msg cfg0,
               Event.getaddrinfo cfg0.host cfg0.port (init_conn_hints nuttx) (-2) [],
               Event.printf "ERROR! getaddrinfo() failed: %s\n"
                 [PrintArg.str (some "Unknown error")]] } :=
  ⟨by decide, by decide, by decide, by decide⟩

/-! ## parsearg -/

/-- C3: in the `q` case of `parsearg`, with `v` the value `strtol` gives for
the option argument, the character constants compared with `v` are 48, 49
and 50; `cfg->qos` becomes `MQTT_PUBLISH_QOS_0`, `_1` or `_2` (as `uint8_t`)
when `v` is 48, 49 or 50, and nothing at all changes for any other `v`, in
particular for 0, 1 and 2.  The same holds for the argument vector
`prog -q s`. -/
theorem parsearg_q_compares_with_character_codes (k : Consts) (env : Env)
    (optarg : Option String) (st : ParseState) (prog s : String) :
    chr '0' = 48 ∧ chr '1' = 49 ∧ chr '2' = 50 ∧
    (env.strtol optarg 10 = 48 →
      parsearg_switch k env (chr 'q') optarg st =
        { st with cfg := { st.cfg with qos := k.MQTT_PUBLISH_QOS_0 % 256 } }) ∧
    (env.strtol optarg 10 = 49 →
      parsearg_switch k env (chr 'q') optarg st =
        { st with cfg := { st.cfg with qos := k.MQTT_PUBLISH_QOS_1 % 256 } }) ∧
    (env.strtol optarg 10 = 50 →
      parsearg_switch k env (chr 'q') optarg st =
        { st with cfg := { st.cfg with qos := k.MQTT_PUBLISH_QOS_2 % 256 } }) ∧
    (env.strtol optarg 10 ≠ 48 → env.strtol optarg 10 ≠ 49 → env.strtol optarg 10 ≠ 50 →
      parsearg_switch k env (chr 'q') optarg st = st) ∧
    (env.strtol optarg 10 = 0 ∨ env.strtol optarg 10 = 1 ∨ env.strtol optarg 10 = 2 →
      parsearg_switch k env (chr 'q') optarg st = st) ∧
    parsearg_argv k env [prog, "-q", s] st = parsearg_switch k env (chr 'q') (some s) st := by
  have hq : ∀ v : Int, v ≠ 48 → v ≠ 49 → v ≠ 50 → env.strtol optarg 10 = v →
      parsearg_switch k env (chr 'q') optarg st = st := by
    intro v h0 h1 h2 hv
    simp [parsearg_switch, chr, hv, h0, h1, h2]
  refine ⟨by decide, by decide, by decide, ?_, ?_, ?_, ?_, ?_, ?_⟩
  · intro hv; simp [parsearg_switch, chr, hv]
  · intro hv; simp [parsearg_switch, chr, hv]
  · intro hv; simp [parsearg_switch, chr, hv]
  · intro h0 h1 h2; exact hq _ h0 h1 h2 rfl
  · rintro (hv | hv | hv)
    · exact hq 0 (by decide) (by decide) (by decide) hv
    · exact hq 1 (by decide) (by decide) (by decide) hv
    · exact hq 2 (by decide) (by decide) (by decide) hv
  · have hg : getopt_all optstring [prog, "-q", s] = [{ opt := chr 'q', optarg := some s }] := by
      rfl
    rw [parsearg_argv, hg]
    simp [parsearg, chr, ERROR]

/-- Two runs of `parsearg` with a POSIX `strtol`: `-q 1` changes nothing,
`-q 49` selects `MQTT_PUBLISH_QOS_1`. -/
lemma parsearg_q_examples :
    parsearg_argv nuttx env_one ["mqttc_sub", "-q", "1"] ⟨cfg0, 0, []⟩ = ⟨cfg0, 0, []⟩ ∧
    parsearg_argv nuttx env_one ["mqttc_sub", "-q", "49"] ⟨cfg0, 0, []⟩ =
      ⟨{ cfg0 with qos := 2 }, 0, []⟩ := by
  decide

/-- `getopt` on `-c arg`, for `c` one of `h`, `p`, `t`, `m`: the option `c`
with argument `arg`, whatever `arg` is. -/
lemma getopt_from_option (c : Char) (hc : c ∈ ['h', 'p', 't', 'm']) (arg : String)
    (rest : List String) :
    getopt_from optstring.data (String.mk ['-', c] :: arg :: rest) =
      { opt := chr c, optarg := some arg } :: getopt_from optstring.data rest := by
  simp only [List.mem_cons, List.mem_singleton, List.not_mem_nil, or_false] at hc
  rcases hc with rfl | rfl | rfl | rfl <;> rfl

/-- `getopt` over a vector of options with arguments hands back each option
with its argument, in order. -/
lemma getopt_all_option_args (prog : String) (opts : List (Char × String))
    (hopts : ∀ p ∈ opts, p.1 ∈ ['h', 'p', 't', 'm']) :
    getopt_all optstring (prog :: option_args opts) =
      opts.map fun p => { opt := chr p.1, optarg := some p.2 } := by
  simp only [getopt_all, List.tail_cons]
  induction opts with
  | nil => rfl
  | cons p ps ih =>
    have hp := hopts p (List.mem_cons_self _ _)
    have hps : ∀ q ∈ ps, q.1 ∈ ['h', 'p', 't', 'm'] :=
      fun q hq => hopts q (List.mem_cons_of_mem _ hq)
    have hcons : option_args (p :: ps) = String.mk ['-', p.1] :: p.2 :: option_args ps := by
      simp [option_args]
    rw [hcons, getopt_from_option p.1 hp, ih hps]
    rfl

/-- `parsearg` over options `h`, `p`, `t`, `m`: each of the four fields ends
as the argument of the last occurrence of its option, and nothing else
changes. -/
lemma parsearg_options (k : Consts) (env : Env) (opts : List (Char × String))
    (hopts : ∀ p ∈ opts, p.1 ∈ ['h', 'p', 't', 'm']) :
    ∀ st : ParseState,
      parsearg k env (opts.map fun p => { opt := chr p.1, optarg := some p.2 }) st =
        { st with cfg := { st.cfg with
            host := last_arg 'h' opts st.cfg.host
            port := last_arg 'p' opts st.cfg.port
            topic := last_arg 't' opts st.cfg.topic
            msg := last_arg 'm' opts st.cfg.msg } } := by
  induction opts with
  | nil => intro st; rfl
  | cons p ps ih =>
    intro st
    have hp := hopts p (List.mem_cons_self _ _)
    have hps : ∀ q ∈ ps, q.1 ∈ ['h', 'p', 't', 'm'] :=
      fun q hq => hopts q (List.mem_cons_of_mem _ hq)
    obtain ⟨c, a⟩ := p
    simp only [List.mem_cons, List.mem_singleton, List.not_mem_nil, or_false] at hp
    have hne : chr c ≠ ERROR := by
      rcases hp with rfl | rfl | rfl | rfl <;> decide
    simp only [List.map_cons, parsearg, hne, ne_eq, not_false_eq_true, if_true]
    rw [ih hps]
    rcases hp with rfl | rfl | rfl | rfl <;>
      simp [parsearg_switch, chr, last_arg]

/-- The last occurrence of `c` decides `last_arg`. -/
lemma last_arg_of_split (c : Char) (a : String) (post : List (Char × String))
    (hpost : ∀ q ∈ post, q.1 ≠ c) :
    ∀ (pre : List (Char × String)) (d : Option String),
      last_arg c (pre ++ (c, a) :: post) d = some a := by
  have habs : ∀ (l : List (Char × String)) (d : Option String),
      (∀ q ∈ l, q.1 ≠ c) → last_arg c l d = d := by
    intro l
    induction l with
    | nil => intro d _; rfl
    | cons q qs ih =>
      intro d hl
      have hq := hl q (List.mem_cons_self _ _)
      simp only [last_arg, hq, if_false]
      exact ih d fun q' hq' => hl q' (List.mem_cons_of_mem _ hq')
  intro pre
  induction pre with
  | nil => intro d; simp only [List.nil_append, last_arg, if_true]; exact habs post _ hpost
  | cons q qs ih => intro d; simp only [List.cons_append, last_arg]; exact ih _

/-- Without an occurrence of `c`, `last_arg` is the default. -/
lemma last_arg_of_absent (c : Char) :
    ∀ (l : List (Char × String)) (d : Option String),
      (∀ q ∈ l, q.1 ≠ c) → last_arg c l d = d := by
  intro l
  induction l with
  | nil => intro d _; rfl
  | cons q qs ih =>
    intro d hl
    have hq := hl q (List.mem_cons_self _ _)
    simp only [last_arg, hq, if_false]
    exact ih d fun q' hq' => hl q' (List.mem_cons_of_mem _ hq')

/-- C4: for an argument vector `prog -c₁ a₁ -c₂ a₂ ...` whose options are
all among `h`, `p`, `t`, `m`, `parsearg` leaves `cfg->host`, `cfg->port`,
`cfg->topic` and `cfg->msg` at the argument of the last occurrence of `h`,
`p`, `t` and `m`, a field whose option does not occur keeps its value, and
`id`, `user`, `pass`, `tmo`, `flags`, `qos`, `*n` and the output are as
before. -/
theorem parsearg_sets_host_port_topic_msg (k : Consts) (env : Env) (prog : String)
    (opts : List (Char × String)) (hopts : ∀ p ∈ opts, p.1 ∈ ['h', 'p', 't', 'm'])
    (st : ParseState) :
    (∀ pre a post, opts = pre ++ ('h', a) :: post → (∀ q ∈ post, q.1 ≠ 'h') →
      (parsearg_argv k env (prog :: option_args opts) st).cfg.host = some a) ∧
    ((∀ q ∈ opts, q.1 ≠ 'h') →
      (parsearg_argv k env (prog :: option_args opts) st).cfg.host = st.cfg.host) ∧
    (∀ pre a post, opts = pre ++ ('p', a) :: post → (∀ q ∈ post, q.1 ≠ 'p') →
      (parsearg_argv k env (prog :: option_args opts) st).cfg.port = some a) ∧
    ((∀ q ∈ opts, q.1 ≠ 'p') →
      (parsearg_argv k env (prog :: option_args opts) st).cfg.port = st.cfg.port) ∧
    (∀ pre a post, opts = pre ++ ('t', a) :: post → (∀ q ∈ post, q.1 ≠ 't') →
      (parsearg_argv k env (prog :: option_args opts) st).cfg.topic = some a) ∧
    ((∀ q ∈ opts, q.1 ≠ 't') →
      (parsearg_argv k env (prog :: option_args opts) st).cfg.topic = st.cfg.topic) ∧
    (∀ pre a post, opts = pre ++ ('m', a) :: post → (∀ q ∈ post, q.1 ≠ 'm') →
      (parsearg_argv k env (prog :: option_args opts) st).cfg.msg = some a) ∧
    ((∀ q ∈ opts, q.1 ≠ 'm') →
      (parsearg_argv k env (prog :: option_args opts) st).cfg.msg = st.cfg.msg) ∧
    (parsearg_argv k env (prog :: option_args opts) st).cfg.id = st.cfg.id ∧
    (parsearg_argv k env (prog :: option_args opts) st).cfg.user = st.cfg.user ∧
    (parsearg_argv k env (prog :: option_args opts) st).cfg.pass = st.cfg.pass ∧
    (parsearg_argv k env (prog :: option_args opts) st).cfg.tmo = st.cfg.tmo ∧
    (parsearg_argv k env (prog :: option_args opts) st).cfg.flags = st.cfg.flags ∧
    (parsearg_argv k env (prog :: option_args opts) st).cfg.qos = st.cfg.qos ∧
    (parsearg_argv k env (prog :: option_args opts) st).n = st.n ∧
    (parsearg_argv k env (prog :: option_args opts) st).trace = st.trace := by
  have hrun : parsearg_argv k env (prog :: option_args opts) st =
      { st with cfg := { st.cfg with
          host := last_arg 'h' opts st.cfg.host
          port := last_arg 'p' opts st.cfg.port
          topic := last_arg 't' opts st.cfg.topic
          msg := last_arg 'm' opts st.cfg.msg } } := by
    rw [parsearg_argv, getopt_all_option_args prog opts hopts]
    exact parsearg_options k env opts hopts st
  rw [hrun]
  refine ⟨?_, last_arg_of_absent 'h' opts _, ?_, last_arg_of_absent 'p' opts _,
    ?_, last_arg_of_absent 't' opts _, ?_, last_arg_of_absent 'm' opts _,
    rfl, rfl, rfl, rfl, rfl, rfl, rfl, rfl⟩
  · rintro pre a post rfl hpost; exact last_arg_of_split 'h' a post hpost pre _
  · rintro pre a post rfl hpost; exact last_arg_of_split 'p' a post hpost pre _
  · rintro pre a post rfl hpost; exact last_arg_of_split 't' a post hpost pre _
  · rintro pre a post rfl hpost; exact last_arg_of_split 'm' a post hpost pre _

/-- Witness for C4: for `prog -h a -p 1883 -h b` the host ends as `b`, the
port as `1883`, and the topic is as before. -/
theorem parsearg_sets_host_port_topic_msg_witness :
    (∀ p ∈ [('h', "a"), ('p', "1883"), ('h', "b")], p.1 ∈ ['h', 'p', 't', 'm']) ∧
    (parsearg_argv nuttx env_one
      ("mqttc_sub" :: option_args [('h', "a"), ('p', "1883"), ('h', "b")])
      ⟨cfg0, 0, []⟩).cfg.host = some "b" ∧
    (parsearg_argv nuttx env_one
      ("mqttc_sub" :: option_args [('h', "a"), ('p', "1883"), ('h', "b")])
      ⟨cfg0, 0, []⟩).cfg.topic = cfg0.topic :=
  ⟨by decide,
    (parsearg_sets_host_port_topic_msg nuttx env_one "mqttc_sub"
      [('h', "a"), ('p', "1883"), ('h', "b")] (by decide) ⟨cfg0, 0, []⟩).1
      [('h', "a"), ('p', "1883")] "b" [] rfl (by simp),
    (parsearg_sets_host_port_topic_msg nuttx env_one "mqttc_sub"
      [('h', "a"), ('p', "1883"), ('h', "b")] (by decide) ⟨cfg0, 0, []⟩).2.2.2.2.2.1
      (by decide)⟩

end Mqttc
